import Mathlib

/-!
Verification of the `tree-sitter-ghostlang` Language Descriptor Provider.

The repository ships a single source file, the public header
`bindings/swift/TreeSitterGhostlang/ghostlang.h`:

  #ifndef TREE_SITTER_GHOSTLANG_H_
  #define TREE_SITTER_GHOSTLANG_H_

  typedef struct TSLanguage TSLanguage;

  #ifdef __cplusplus
  extern "C" {
  #endif

  const TSLanguage *tree_sitter_ghostlang(void);

  #ifdef __cplusplus
  }
  #endif

  #endif // TREE_SITTER_GHOSTLANG_H_

Two embeddings below:

1. The header itself, as a list of preprocessor lines and C declarations,
   together with a small conditional-compilation semantics (`ppProcess`),
   a linkage semantics and a type-completeness check.  These are translated
   directly from the source file above.

2. The runtime behaviour of `tree_sitter_ghostlang`.  Its definition is not
   part of the repository (only the declaration is), so the behaviour is
   modelled from the spec: the function returns the address of a statically
   initialized, immutable record, with no side effects.
-/

/- ### Part 1: the header, embedded from the source file -/

/-- A C function declaration as it appears in the header: a name, a list of
parameter types (`void` parameter list becomes `[]`), and a return type that
is a pointer to a named type, possibly `const`-qualified at the pointee. -/
structure FunDecl where
  name : String
  params : List String
  returnsPointerTo : String
  returnsConstPointee : Bool
deriving DecidableEq, Repr

/-- One line of the header: a preprocessor directive, a struct typedef
(with `none` as body when the struct is only forward-declared and hence
incomplete), the braces of a C-linkage block, or a function declaration. -/
inductive HeaderItem where
  | ppIfNotDefined (m : String)
  | ppIfDefined (m : String)
  | ppDefine (m : String)
  | ppEndif
  | typedefStruct (tag : String) (name : String) (body : Option (List String))
  | cLinkageBegin
  | cLinkageEnd
  | funDecl (f : FunDecl)
deriving DecidableEq, Repr

/-- The contents of `ghostlang.h`, line by line.  `typedef struct TSLanguage
TSLanguage;` forward-declares the struct with no body; the function returns
`const TSLanguage *` and takes `void`, i.e. no parameters. -/
def ghostlangHeader : List HeaderItem :=
  [ .ppIfNotDefined "TREE_SITTER_GHOSTLANG_H_"
  , .ppDefine "TREE_SITTER_GHOSTLANG_H_"
  , .typedefStruct "TSLanguage" "TSLanguage" none
  , .ppIfDefined "__cplusplus"
  , .cLinkageBegin
  , .ppEndif
  , .funDecl { name := "tree_sitter_ghostlang", params := []
             , returnsPointerTo := "TSLanguage", returnsConstPointee := true }
  , .ppIfDefined "__cplusplus"
  , .cLinkageEnd
  , .ppEndif ]

/-- Conditional-compilation semantics for the directives the header uses.
`defs` is the set of defined preprocessor names, `stack` the truth values of
the enclosing conditionals (a line is kept only when all are true).  Returns
the updated define set and the lines that survive preprocessing. -/
def ppProcess : List HeaderItem → List String → List Bool → List String × List HeaderItem
  | [], defs, _ => (defs, [])
  | .ppIfNotDefined m :: rest, defs, stack => ppProcess rest defs ((! defs.contains m) :: stack)
  | .ppIfDefined m :: rest, defs, stack => ppProcess rest defs (defs.contains m :: stack)
  | .ppEndif :: rest, defs, stack => ppProcess rest defs stack.tail
  | .ppDefine m :: rest, defs, stack =>
      if stack.all (fun b => b) then ppProcess rest (m :: defs) stack
      else ppProcess rest defs stack
  | item :: rest, defs, stack =>
      if stack.all (fun b => b) then
        ((ppProcess rest defs stack).1, item :: (ppProcess rest defs stack).2)
      else ppProcess rest defs stack

/-- Including the header `n` times in a row in one translation unit, threading
the define set, collecting every line that survives preprocessing. -/
def includeN : Nat → List String → List String × List HeaderItem
  | 0, defs => (defs, [])
  | n + 1, defs =>
      ((includeN n (ppProcess ghostlangHeader defs []).1).1,
        (ppProcess ghostlangHeader defs []).2 ++
          (includeN n (ppProcess ghostlangHeader defs []).1).2)

/-- The function declarations among a list of surviving header lines. -/
def exportedFunctions (items : List HeaderItem) : List FunDecl :=
  items.filterMap fun i =>
    match i with
    | .funDecl f => some f
    | _ => none

/-- The type names a list of surviving header lines introduces. -/
def exposedTypeNames (items : List HeaderItem) : List String :=
  items.filterMap fun i =>
    match i with
    | .typedefStruct _ n _ => some n
    | _ => none

/-- Whether a struct type of the given name is complete (has a body) in the
surviving header lines; a forward declaration alone leaves it incomplete. -/
def typeComplete (items : List HeaderItem) (n : String) : Bool :=
  items.any fun i =>
    match i with
    | .typedefStruct _ nm body => nm == n && body.isSome
    | _ => false

/-- Linkage semantics: in a C translation unit (`cpp = false`) every declared
function has C linkage; in a C++ translation unit a function has C linkage
exactly when it is declared inside an `extern "C"` block.  Returns each
declared function name paired with whether it gets C linkage. -/
def linkageScan (cpp : Bool) : List HeaderItem → Nat → List (String × Bool)
  | [], _ => []
  | .cLinkageBegin :: rest, d => linkageScan cpp rest (d + 1)
  | .cLinkageEnd :: rest, d => linkageScan cpp rest (d - 1)
  | .funDecl f :: rest, d => (f.name, !cpp || decide (0 < d)) :: linkageScan cpp rest d
  | _ :: rest, d => linkageScan cpp rest d

/-- The C-linkage braces in a list of surviving lines are balanced: the close
brace never appears without a matching open brace, and all blocks are closed. -/
def linkageBalanced : List HeaderItem → Nat → Bool
  | [], d => d == 0
  | .cLinkageBegin :: rest, d => linkageBalanced rest (d + 1)
  | .cLinkageEnd :: rest, d => decide (0 < d) && linkageBalanced rest (d - 1)
  | _ :: rest, d => linkageBalanced rest d

/- ### Part 2: runtime behaviour, modelled from the spec -/

/-- Modelled from the spec: the definition of `tree_sitter_ghostlang` is not
under `src/` (the repository holds only its declaration in `ghostlang.h`).
Per the spec, the Language Descriptor record "is created at program image
load (it is static data), never mutated, and lives until process exit".
A process state records the address and size the image loader gave the
static record, and the current contents of process memory. -/
structure ProcState where
  descriptorAddr : Nat
  descriptorSize : Nat
  mem : Nat → Nat

/-- An address lies inside the static Language Descriptor record. -/
def inDescriptor (s : ProcState) (a : Nat) : Prop :=
  s.descriptorAddr ≤ a ∧ a < s.descriptorAddr + s.descriptorSize

/-- Modelled from the spec: the algorithm of the entry point is "trivial —
return the address of a statically initialized record"; it reads no mutable
state and performs no writes, so it returns the load-time address and leaves
the process state unchanged. -/
def tree_sitter_ghostlang (s : ProcState) : Nat × ProcState :=
  (s.descriptorAddr, s)

/-- Modelled from the spec: a loaded program image places static data at a
non-null address. -/
def LoadedImage (s : ProcState) : Prop :=
  s.descriptorAddr ≠ 0

/-- Modelled from the spec: one step of process execution is either a call of
the entry point, or a host parse operation driven by the handle.  The spec
makes the descriptor "read-only shared state; no mutation": a host operation
may change memory only outside the static record, and never moves it. -/
inductive Step : ProcState → ProcState → Prop where
  | call (s : ProcState) : Step s (tree_sitter_ghostlang s).2
  | hostOp (s s' : ProcState)
      (haddr : s'.descriptorAddr = s.descriptorAddr)
      (hsize : s'.descriptorSize = s.descriptorSize)
      (hmem : ∀ a, inDescriptor s a → s'.mem a = s.mem a) : Step s s'

/-- Any finite sequence of process steps. -/
inductive Reaches : ProcState → ProcState → Prop where
  | refl (s : ProcState) : Reaches s s
  | step {s t u : ProcState} : Reaches s t → Step t u → Reaches s u

/-- Along any execution the static record keeps its address, its size and its
bytes: the loader fixes it at image load and nothing moves or rewrites it. -/
theorem reaches_preserves {s s' : ProcState} (h : Reaches s s') :
    s'.descriptorAddr = s.descriptorAddr ∧ s'.descriptorSize = s.descriptorSize ∧
      ∀ a, inDescriptor s a → s'.mem a = s.mem a := by
  induction h with
  | refl => exact ⟨rfl, rfl, fun a _ => rfl⟩
  | @step t u hpre hstep ih =>
    rcases ih with ⟨ha, hs, hm⟩
    cases hstep with
    | call => exact ⟨ha, hs, hm⟩
    | hostOp _ haddr hsize hmem =>
      refine ⟨haddr.trans ha, hsize.trans hs, fun a hin => ?_⟩
      have hin2 : inDescriptor t a := by
        rcases hin with ⟨h1, h2⟩
        constructor
        · rw [ha]; exact h1
        · rw [ha, hs]; exact h2
      exact (hmem a hin2).trans (hm a hin)

/-- A concrete process state: the descriptor is 64 bytes of zeroed static
data at address 4096. -/
def sampleState : ProcState :=
  { descriptorAddr := 4096, descriptorSize := 64, mem := fun _ => 0 }

/-- A concrete later state: a host operation has scribbled over scratch
memory below the static record, leaving the record itself untouched. -/
def sampleState2 : ProcState :=
  { descriptorAddr := 4096, descriptorSize := 64
  , mem := fun a => if a < 4096 then 7 else 0 }

/-- The concrete later state is reachable from the initial one by one host
parse operation. -/
theorem sample_reaches : Reaches sampleState sampleState2 := by
  refine Reaches.step (Reaches.refl sampleState) (Step.hostOp _ _ rfl rfl ?_)
  intro a ha
  rcases ha with ⟨h1, _⟩
  simp only [sampleState, sampleState2]
  have : ¬ a < 4096 := by
    simp only [sampleState] at h1
    omega
  simp [this]

/-- Once the include guard name is defined, including the header again leaves
the define set unchanged and emits nothing: every line sits inside the false
`#ifndef TREE_SITTER_GHOSTLANG_H_` conditional. -/
theorem ppProcess_guard_defined (defs : List String)
    (h : "TREE_SITTER_GHOSTLANG_H_" ∈ defs) :
    ppProcess ghostlangHeader defs [] = (defs, []) := by
  simp [ghostlangHeader, ppProcess, h]

/-- After any one inclusion of the header the guard name is defined, whether
or not it was defined before and whatever else the define set holds. -/
theorem ppProcess_defines_guard (defs : List String) :
    "TREE_SITTER_GHOSTLANG_H_" ∈ (ppProcess ghostlangHeader defs []).1 := by
  by_cases hg : "TREE_SITTER_GHOSTLANG_H_" ∈ defs
  · rw [ppProcess_guard_defined defs hg]; exact hg
  · by_cases hc : "__cplusplus" ∈ defs <;>
      simp [ghostlangHeader, ppProcess, hg, hc]

/- ### The claims -/

/-- Claim C1: every invocation of `tree_sitter_ghostlang` returns a non-null
handle to the Language Descriptor, and the handle stays valid for the rest of
the process: in every state reachable by further calls and host parse
operations it still addresses the descriptor record. -/
theorem tree_sitter_ghostlang_returns_nonnull_handle (s : ProcState)
    (h : LoadedImage s) :
    (tree_sitter_ghostlang s).1 ≠ 0 ∧
      ∀ s', Reaches s s' → s'.descriptorAddr = (tree_sitter_ghostlang s).1 :=
  ⟨h, fun _ hr => (reaches_preserves hr).1⟩

/-- Claim C1, witness: in the concrete loaded process the call returns a
non-null handle. -/
theorem tree_sitter_ghostlang_returns_nonnull_handle_witness :
    (tree_sitter_ghostlang sampleState).1 ≠ 0 :=
  (tree_sitter_ghostlang_returns_nonnull_handle sampleState (by show sampleState.descriptorAddr ≠ 0; decide)).1

/-- Claim C2: `tree_sitter_ghostlang` is idempotent: any two invocations in
the same process, however many steps apart, return equal handle values, so
the pointer is stable and may be cached indefinitely. -/
theorem tree_sitter_ghostlang_stable (s s' : ProcState) (h : Reaches s s') :
    (tree_sitter_ghostlang s').1 = (tree_sitter_ghostlang s).1 :=
  (reaches_preserves h).1

/-- Claim C2, witness: a second call after a concrete host parse operation
returns the same handle as the first call. -/
theorem tree_sitter_ghostlang_stable_witness :
    (tree_sitter_ghostlang sampleState2).1 = (tree_sitter_ghostlang sampleState).1 :=
  tree_sitter_ghostlang_stable sampleState sampleState2 sample_reaches

/-- Claim C3: a call of `tree_sitter_ghostlang` has no side effects (it
leaves the process state unchanged), and the bytes of the descriptor record
are identical before and after any sequence of calls and host parse
operations. -/
theorem tree_sitter_ghostlang_no_side_effects (s s' : ProcState)
    (h : Reaches s s') :
    (tree_sitter_ghostlang s).2 = s ∧
      ∀ a, inDescriptor s a → s'.mem a = s.mem a :=
  ⟨rfl, (reaches_preserves h).2.2⟩

/-- Claim C3, witness: in the concrete process the call leaves the state
unchanged, and the first descriptor byte is untouched by a host operation. -/
theorem tree_sitter_ghostlang_no_side_effects_witness :
    (tree_sitter_ghostlang sampleState).2 = sampleState ∧
      sampleState2.mem 4096 = sampleState.mem 4096 :=
  ⟨(tree_sitter_ghostlang_no_side_effects sampleState sampleState2 sample_reaches).1,
    (tree_sitter_ghostlang_no_side_effects sampleState sampleState2 sample_reaches).2
      4096 ⟨by decide, by decide⟩⟩

/-- Claim C4: the external ABI is exactly one exported C-callable symbol
`tree_sitter_ghostlang`, taking no arguments and returning a pointer to the
(const, opaque) `TSLanguage` descriptor structure — in a C translation unit
and in a C++ one alike. -/
theorem header_abi_single_symbol :
    exportedFunctions (ppProcess ghostlangHeader [] []).2 =
      [{ name := "tree_sitter_ghostlang", params := []
       , returnsPointerTo := "TSLanguage", returnsConstPointee := true }] ∧
    exportedFunctions (ppProcess ghostlangHeader ["__cplusplus"] []).2 =
      [{ name := "tree_sitter_ghostlang", params := []
       , returnsPointerTo := "TSLanguage", returnsConstPointee := true }] :=
  ⟨rfl, rfl⟩

/-- Claim C5: the header is consumable from both C and C++ translation units:
both preprocessed forms carry the forward declaration of the opaque type and
well-balanced linkage braces, and the declared function gets C linkage in
both — in C++ because the declaration falls inside the `extern "C"` block —
so the symbol is never name-mangled. -/
theorem header_c_linkage_both_modes :
    exposedTypeNames (ppProcess ghostlangHeader [] []).2 = ["TSLanguage"] ∧
    exposedTypeNames (ppProcess ghostlangHeader ["__cplusplus"] []).2 = ["TSLanguage"] ∧
    linkageBalanced (ppProcess ghostlangHeader [] []).2 0 = true ∧
    linkageBalanced (ppProcess ghostlangHeader ["__cplusplus"] []).2 0 = true ∧
    linkageScan false (ppProcess ghostlangHeader [] []).2 0 =
      [("tree_sitter_ghostlang", true)] ∧
    linkageScan true (ppProcess ghostlangHeader ["__cplusplus"] []).2 0 =
      [("tree_sitter_ghostlang", true)] :=
  ⟨rfl, rfl, rfl, rfl, rfl, rfl⟩

/-- Claim C6: the header exposes exactly one name (the function
`tree_sitter_ghostlang`) and one type (the opaque `TSLanguage`), in both
translation modes, and the component has no other surface: the entry point
touches no state at all (so no environment, no filesystem, nothing
persisted). -/
theorem header_exposes_one_name_one_type :
    exposedTypeNames (ppProcess ghostlangHeader [] []).2 = ["TSLanguage"] ∧
    (exportedFunctions (ppProcess ghostlangHeader [] []).2).map FunDecl.name =
      ["tree_sitter_ghostlang"] ∧
    exposedTypeNames (ppProcess ghostlangHeader ["__cplusplus"] []).2 = ["TSLanguage"] ∧
    (exportedFunctions (ppProcess ghostlangHeader ["__cplusplus"] []).2).map FunDecl.name =
      ["tree_sitter_ghostlang"] ∧
    ∀ s : ProcState, (tree_sitter_ghostlang s).2 = s :=
  ⟨rfl, rfl, rfl, rfl, fun _ => rfl⟩

/-- Claim C7: `tree_sitter_ghostlang` has no runtime error paths: at every
reachable state of a loaded process the call completes by returning the
descriptor address and the process never leaves the loaded regime. -/
theorem tree_sitter_ghostlang_no_error_paths (s : ProcState) (h : LoadedImage s)
    (s' : ProcState) (hr : Reaches s s') :
    tree_sitter_ghostlang s' = (s'.descriptorAddr, s') ∧ LoadedImage s' := by
  refine ⟨rfl, ?_⟩
  have ha := (reaches_preserves hr).1
  unfold LoadedImage at h ⊢
  rw [ha]
  exact h

/-- Claim C7, witness: after a concrete host parse operation the call still
completes normally. -/
theorem tree_sitter_ghostlang_no_error_paths_witness :
    tree_sitter_ghostlang sampleState2 = (sampleState2.descriptorAddr, sampleState2) :=
  (tree_sitter_ghostlang_no_error_paths sampleState (by show sampleState.descriptorAddr ≠ 0; decide)
    sampleState2 sample_reaches).1

/-- Claim C8: `tree_sitter_ghostlang` is safe to invoke concurrently: a call
made by any thread, at whatever interleaving point of the other threads'
activity it lands on, returns the same non-null handle as every other call
and performs no write at all (so no data race is observable). -/
theorem tree_sitter_ghostlang_thread_safe (s : ProcState) (h : LoadedImage s)
    (ts : List ProcState) (hts : ∀ t ∈ ts, Reaches s t) :
    ∀ t ∈ ts, (tree_sitter_ghostlang t).1 = (tree_sitter_ghostlang s).1 ∧
      (tree_sitter_ghostlang t).1 ≠ 0 ∧ (tree_sitter_ghostlang t).2 = t := by
  intro t ht
  have hp := reaches_preserves (hts t ht)
  refine ⟨hp.1, ?_, rfl⟩
  show t.descriptorAddr ≠ 0
  rw [hp.1]
  exact h

/-- Claim C8, witness: two concurrent calls in the concrete process — one at
the initial state, one interleaved after a host operation — agree on the
same non-null handle and write nothing. -/
theorem tree_sitter_ghostlang_thread_safe_witness :
    (tree_sitter_ghostlang sampleState2).1 = (tree_sitter_ghostlang sampleState).1 ∧
      (tree_sitter_ghostlang sampleState2).1 ≠ 0 ∧
      (tree_sitter_ghostlang sampleState2).2 = sampleState2 :=
  tree_sitter_ghostlang_thread_safe sampleState (by show sampleState.descriptorAddr ≠ 0; decide)
    [sampleState, sampleState2]
    (by
      intro t ht
      simp only [List.mem_cons, List.not_mem_nil, or_false] at ht
      rcases ht with rfl | rfl
      · exact Reaches.refl _
      · exact sample_reaches)
    sampleState2 (by simp)

/-- Claim C9: inclusion of the header is idempotent: thanks to the
`TREE_SITTER_GHOSTLANG_H_` guard, including it `n + 1` times in a
translation unit — whatever was defined beforehand — introduces exactly the
declarations of a single inclusion, with no redefinition. -/
theorem header_include_idempotent (n : Nat) (defs : List String) :
    (includeN (n + 1) defs).2 = (ppProcess ghostlangHeader defs []).2 := by
  induction n generalizing defs with
  | zero => simp [includeN]
  | succ n ih =>
    have hd : (ppProcess ghostlangHeader (ppProcess ghostlangHeader defs []).1 []).2 = [] := by
      rw [ppProcess_guard_defined _ (ppProcess_defines_guard defs)]
    calc (includeN (n + 1 + 1) defs).2
        = (ppProcess ghostlangHeader defs []).2 ++
            (includeN (n + 1) (ppProcess ghostlangHeader defs []).1).2 := rfl
      _ = (ppProcess ghostlangHeader defs []).2 := by rw [ih, hd, List.append_nil]

/-- Claim C10: the handle is typed `const TSLanguage *` and `TSLanguage` is
incomplete in the header, so through this interface a caller can neither
write the descriptor nor access its fields: every function the header
declares, in either translation mode, returns a const pointer whose pointee
type has no visible definition. -/
theorem header_handle_type_immutable :
    (∀ f ∈ exportedFunctions (ppProcess ghostlangHeader [] []).2,
        f.returnsConstPointee = true ∧ f.returnsPointerTo = "TSLanguage" ∧
          typeComplete (ppProcess ghostlangHeader [] []).2 f.returnsPointerTo = false) ∧
    (∀ f ∈ exportedFunctions (ppProcess ghostlangHeader ["__cplusplus"] []).2,
        f.returnsConstPointee = true ∧ f.returnsPointerTo = "TSLanguage" ∧
          typeComplete (ppProcess ghostlangHeader ["__cplusplus"] []).2
            f.returnsPointerTo = false) := by
  constructor <;> (intro f hf; simp_all [exportedFunctions, ppProcess, ghostlangHeader, typeComplete])
